import Mathlib

/-!
Verification development for the candidate-generation web application
(`Home.tsx`, `components/CodePreview.tsx`).

The definitions below are shallow embeddings of the application's functions:
pure text processing becomes Lean functions on `List Char` / `String`,
the stateful React handlers become explicit state-transformers on a
`HostState` record, asynchronous calls become explicit outcome parameters
(`Except`), and the `Promise.all` event-loop semantics is modelled with an
explicit completion order.
-/

/-! ### JavaScript string primitives

`\s` in a JavaScript regular expression and `String.prototype.trim` both
use the ECMAScript WhiteSpace ∪ LineTerminator character class, reproduced
here character by character. -/

/-- The ECMAScript whitespace class: TAB, LF, VT, FF, CR, SP, NBSP,
OGHAM SPACE, the U+2000–U+200A range, LS, PS, NNBSP, MMSP, IDEOGRAPHIC
SPACE and ZWNBSP. -/
def isJsSpace (c : Char) : Bool :=
  c = ' ' || c = '\t' || c = '\n' || c = '\r' || c = '\x0b' || c = '\x0c' ||
  c = '\u00A0' || c = '\u1680' || ('\u2000' ≤ c && c ≤ '\u200A') ||
  c = '\u2028' || c = '\u2029' || c = '\u202F' || c = '\u205F' ||
  c = '\u3000' || c = '\uFEFF'

/-- JavaScript `String.prototype.trim` on a character list: drop the
ECMAScript whitespace from both ends. -/
def jsTrim (l : List Char) : List Char :=
  ((l.dropWhile isJsSpace).reverse.dropWhile isJsSpace).reverse

/-- JavaScript `String.prototype.trim` on a `String`. -/
def jsTrimStr (s : String) : String :=
  String.mk (jsTrim s.data)

/-! ### Code Extractor (`Home.tsx`, `generateCode`, lines 171–173)

```
const match = /```(?:javascript|js)?\s*([\s\S]*?)```/g.exec(text);
return { code: match ? match[1].trim() : text, fullResponse: text };
```

The regex is embedded as a deterministic scanner.  This is faithful
because no backtracking of the regex can change the result here: the
characters consumed by the opening fence, the optional language tag and
the greedy `\s*` are never backticks, so shrinking any of them can never
uncover an earlier closing fence, and if no closing fence exists after
the first opening fence then no later starting position can produce a
full match either (a later opening fence would itself be a closing fence
for the first one). -/

/-- The fence delimiter three-backticks sequence. -/
def fence : List Char := ['`', '`', '`']

/-- Split a character list at the first occurrence of the three-backtick
fence: returns the characters before the fence and the characters after
it, or `none` when no fence occurs. -/
def splitAtFence : List Char → Option (List Char × List Char)
  | [] => none
  | c :: cs =>
    if c = '`' ∧ cs.take 2 = ['`', '`'] then some ([], cs.drop 2)
    else (splitAtFence cs).map (fun p => (c :: p.1, p.2))

/-- The optional language tag `(?:javascript|js)?` directly after the
opening fence: `javascript` is tried first, then `js`, then nothing. -/
def stripTag (l : List Char) : List Char :=
  if List.isPrefixOf "javascript".data l then l.drop 10
  else if List.isPrefixOf "js".data l then l.drop 2
  else l

/-- After an opening fence was found, consume the optional tag and the
greedy `\s*`, then capture lazily up to the next fence; if no closing
fence exists the whole regex fails and the full text is returned. -/
def extractAfterOpen (text afterOpen : List Char) : List Char :=
  match splitAtFence ((stripTag afterOpen).dropWhile isJsSpace) with
  | none => text
  | some (interior, _) => jsTrim interior

/-- The Code Extractor on a character list: trimmed interior of the first
fenced block when one is present, the input text unchanged otherwise. -/
def extractCodeList (text : List Char) : List Char :=
  match splitAtFence text with
  | none => text
  | some (_, afterOpen) => extractAfterOpen text afterOpen

/-- The Code Extractor on a `String` (the `match ? match[1].trim() : text`
expression of `generateCode`). -/
def extractCode (s : String) : String :=
  String.mk (extractCodeList s.data)

/-- Wrapping a program text in a `js`-tagged fenced block, the shape the
spec's round-trip property assumes (`"```js\nX\n```"`). -/
def wrapJsFence (s : String) : String :=
  "```js\n" ++ s ++ "\n```"

/-- Wrapping a program text in an untagged fenced block. -/
def wrapPlainFence (s : String) : String :=
  "```\n" ++ s ++ "\n```"

/-! ### Data model (`Home.tsx` state and the Candidate record)

A Candidate is one element of the `outputs` array built in `generateCode`:
`{ id: Date.now() + i, code, fullResponse }`. -/

/-- The error object stored into `errorInfo` by a `catch` branch. -/
structure ErrInfo where
  message : String
deriving DecidableEq

/-- One generated candidate: `{ id, code, fullResponse }`. -/
structure Candidate where
  id : Nat
  code : String
  fullResponse : String
deriving DecidableEq

/-- A chat message role (`'user' | 'assistant'`). -/
inductive Role
  | user
  | assistant
deriving DecidableEq

/-- One chat message `{ role, content, grounding? }`. -/
structure ChatMessage where
  role : Role
  content : String
  grounding : Option (List String)
deriving DecidableEq

/-- The kind of a generated media item (`'image' | 'video'`). -/
inductive MediaKind
  | image
  | video
deriving DecidableEq

/-- One generated media item `{ type, url }`. -/
structure MediaItem where
  kind : MediaKind
  url : String
deriving DecidableEq

/-- The host component state relevant to the claims: the `useState` cells
`imageBase64`, `userInput`, `outputs`, `loading`, `errorInfo`,
`chatMessages` and `generatedMedia` of `Home`. -/
structure HostState where
  imageBase64 : String
  userInput : String
  outputs : List Candidate
  loading : Bool
  errorInfo : Option ErrInfo
  chatMessages : List ChatMessage
  generatedMedia : List MediaItem
deriving DecidableEq

/-! ### `Promise.all` (the joint await in `generateCode`, line 176)

Each of the N concurrent calls settles independently; `outcomes` lists the
settlement of call `i` at position `i` (submission order), and `order`
lists the indices in the order in which the calls complete.  `Promise.all`
rejects with the reason of the first rejection in completion order, and
otherwise resolves with the values assembled positionally. -/

/-- The first rejection in completion order, if any completed call
rejected. -/
def firstRejection (outcomes : List (Except ErrInfo String)) (order : List Nat) :
    Option ErrInfo :=
  order.findSome? (fun i =>
    match outcomes.get? i with
    | some (Except.error e) => some e
    | _ => none)

/-- The fulfilled values of the calls, in submission order. -/
def okResults (outcomes : List (Except ErrInfo String)) : List String :=
  outcomes.filterMap (fun o =>
    match o with
    | Except.ok t => some t
    | Except.error _ => none)

/-- Model of `Promise.all` over the batch: an error when some completed call
rejected, the positional list of values otherwise. -/
def promiseAll (outcomes : List (Except ErrInfo String)) (order : List Nat) :
    Except ErrInfo (List String) :=
  match firstRejection outcomes order with
  | some e => Except.error e
  | none => Except.ok (okResults outcomes)

/-! ### Generation Orchestrator (`Home.tsx`, `generateCode`, lines 148–183)

The function guards on an empty `imageBase64`, sets `loading`, issues the
batch, and on joint success replaces `outputs` with
`results.map((r, i) => ({ id: Date.now() + i, ...r }))`; any rejection is
caught into `errorInfo` and the `finally` branch clears `loading`.  Each
call's text is passed through the Code Extractor (`{ code, fullResponse }`).
`now` stands for `Date.now()` at assembly time. -/

/-- One invocation of `generateCode` as a state transformer; `outcomes`
are the settlements of the N concurrent calls in submission order and
`order` is their completion order. -/
def generateCode (s : HostState) (now : Nat)
    (outcomes : List (Except ErrInfo String)) (order : List Nat) : HostState :=
  if s.imageBase64 = "" then s
  else
    match promiseAll outcomes order with
    | Except.ok texts =>
      { s with
        outputs := texts.enum.map (fun p =>
          { id := now + p.1, code := extractCode p.2, fullResponse := p.2 }),
        loading := false }
    | Except.error e => { s with errorInfo := some e, loading := false }

/-- The number of generation requests `generateCode` issues: zero when the
empty-image guard fires, the configured concurrency degree otherwise
(`Array(concurrentRequests).fill(null).map(...)`, line 154). -/
def generateCodeRequestCount (s : HostState) (concurrentRequests : Nat) : Nat :=
  if s.imageBase64 = "" then 0 else concurrentRequests

/-! ### Chat (`Home.tsx`, `handleChat`, lines 185–219) -/

/-- A fulfilled chat response: the response text (after `res.text || ''`)
and the derived grounding chunks. -/
structure ChatResponse where
  text : String
  grounding : Option (List String)

/-- One invocation of `handleChat`: guard on blank input, append the user
message and clear the input, then either append the assistant message or
record the error; `finally` clears `loading`. -/
def handleChat (s : HostState) (outcome : Except ErrInfo ChatResponse) : HostState :=
  if jsTrimStr s.userInput = "" then s
  else
    let msg := jsTrimStr s.userInput
    let s1 := { s with
      chatMessages := s.chatMessages ++
        [({ role := Role.user, content := msg, grounding := none } : ChatMessage)],
      userInput := "" }
    match outcome with
    | Except.ok r =>
      { s1 with
        chatMessages := s1.chatMessages ++
          [({ role := Role.assistant, content := r.text, grounding := r.grounding } : ChatMessage)],
        loading := false }
    | Except.error e => { s1 with errorInfo := some e, loading := false }

/-! ### Media Lab (`Home.tsx`, `generateMedia`, lines 221–271)

The body (one of the image / edit / video branches) either produces a new
media item to prepend to `generatedMedia` (`ok (some item)`), produces
nothing (no `inlineData` part in the response — `ok none`), or throws
(`error e`, caught into `errorInfo`); the `finally` branch clears
`loading` on every one of those paths.  The function has no input guard. -/

/-- One invocation of `generateMedia` as a state transformer over the
outcome of its `try` body. -/
def generateMedia (s : HostState) (tryResult : Except ErrInfo (Option MediaItem)) :
    HostState :=
  match tryResult with
  | Except.ok (some item) => { s with generatedMedia := item :: s.generatedMedia, loading := false }
  | Except.ok none => { s with loading := false }
  | Except.error e => { s with errorInfo := some e, loading := false }

/-! ### Operation Poller (`Home.tsx`, `generateMedia` video branch, lines 250–264)

```
let res = op;
while (!res.done) {
  await new Promise(r => setTimeout(r, 5000));
  res = await ai.operations.getVideosOperation({ operation: res });
}
const uri = res.response?.generatedVideos?.[0]?.video?.uri;
const vid = await fetch(`${uri}&key=${process.env.API_KEY}`);
```
-/

/-- A long-running operation handle: `done`, the resolved video URI when
terminal (`response?.generatedVideos?.[0]?.video?.uri`), and the
operation's name identifying the handle. -/
structure Operation where
  name : String
  done : Bool
  resultReference : Option String
deriving DecidableEq

/-- The poll loop: while the current handle is not done, fetch the next
handle for it (`getVideosOperation({ operation: res })` — always applied
to the most recently returned handle).  Returns the list of handles that
were passed to a status fetch together with the terminal handle, or
`none` when `fuel` poll ticks were not enough (the loop would still be
running). -/
def pollVideo (getOp : Operation → Operation) :
    Nat → Operation → Option (List Operation × Operation)
  | 0, res => if res.done then some ([], res) else none
  | Nat.succ fuel, res =>
    if res.done then some ([], res)
    else
      match pollVideo getOp fuel (getOp res) with
      | none => none
      | some (tr, t) => some (res :: tr, t)

/-- The single resource-resolution fetch after the loop: the fetched URL
list (JavaScript interpolates a missing `uri` as the text `undefined`). -/
def resolveVideoFetches (t : Operation) (apiKey : String) : List String :=
  [(t.resultReference.getD "undefined") ++ "&key=" ++ apiKey]

/-- The video branch end to end: poll to termination, then resolve the
result reference; returns the status-fetch trace and the resolution
fetches. -/
def videoFlow (getOp : Operation → Operation) (fuel : Nat) (op : Operation)
    (apiKey : String) : Option (List Operation × List String) :=
  match pollVideo getOp fuel op with
  | none => none
  | some (tr, t) => some (tr, resolveVideoFetches t apiKey)

/-! ### Sandbox Harness (`CodePreview.tsx`, `srcDoc`, lines 112–128, and the
JSX `renderSketch`, lines 493–517)

The TSX sandbox document script is

```
const post = (s, m = '') => window.parent.postMessage({ type: 'SKETCH_STATUS', ... });
window.onerror = (m) => post('error', m);
try {
  post('loading');
  <candidate code, wrapped when it lacks 'setup'>
  new p5();
  setTimeout(() => post('success'), 100);
} catch(e) { post('error', e.message); }
```

A run is parameterised by the synchronous outcome of evaluating the
candidate code (`syncError`) and by the uncaught asynchronous errors that
reach `window.onerror`, split into the ones firing before the 100 ms
settling timer (`asyncBefore`) and after it (`asyncAfter`).  When the
evaluation throws synchronously the `catch` posts the error and the
success timer is never scheduled (no sketch was started, so no
asynchronous errors arise).  When it does not throw, the success timer is
scheduled unconditionally and is never cancelled, so every
`window.onerror` firing posts an additional error message around the
`success` post. -/

/-- One status post from a sandbox instance. -/
inductive Emit
  | loading
  | success
  | error (msg : String)
deriving DecidableEq

/-- The status messages a TSX sandbox run posts for its candidate, in
order. -/
def sandboxEmissions (syncError : Option String)
    (asyncBefore asyncAfter : List String) : List Emit :=
  Emit.loading ::
    (match syncError with
     | some m => [Emit.error m]
     | none => asyncBefore.map Emit.error ++ [Emit.success] ++ asyncAfter.map Emit.error)

/-- The status messages a JSX (`renderSketch`) sandbox run posts: same
shape, except that when the evaluated document ends up without a global
`setup` function the script posts a fixed error instead of starting p5. -/
def sandboxEmissionsJsx (syncError : Option String) (hasSetup : Bool)
    (asyncBefore asyncAfter : List String) : List Emit :=
  Emit.loading ::
    (match syncError with
     | some m => [Emit.error m]
     | none =>
       if hasSetup then asyncBefore.map Emit.error ++ [Emit.success] ++ asyncAfter.map Emit.error
       else [Emit.error "No setup() function found."])

/-- The lifecycle sequences the spec allows for a single run:
`[loading, success]` or `[loading, error]`. -/
def lifecycleOk : List Emit → Bool
  | [Emit.loading, Emit.success] => true
  | [Emit.loading, Emit.error _] => true
  | _ => false

/-! ### Status Channel (`CodePreview.tsx`, `handleMessage`, lines 61–70 and
286–302) and the per-candidate view state

Every mounted `CodePreview` holds the per-candidate cells `sketchStatus`
and `sketchError` next to the candidate's `code`; a window message is
delivered to every mounted component's `handleMessage`, and each one
applies it only when `e.data.type === 'SKETCH_STATUS'` and
`e.data.id === output.id`. -/

/-- A sketch status value (`'idle' | 'loading' | 'success' | 'error'`). -/
inductive SStatus
  | idle
  | loading
  | success
  | error
deriving DecidableEq

/-- A Status Channel message `{ type, id, status, message }`. -/
structure SketchMsg where
  type : String
  id : Nat
  status : SStatus
  message : String
deriving DecidableEq

/-- The observable per-candidate state: the candidate's id and code (the
`outputs` entry) plus the owning component's `sketchStatus` and
`sketchError` cells.  `code` is an `Option` because the JSX editor stores
the editor's change value unchecked, which may be absent. -/
structure CandidateView where
  id : Nat
  code : Option String
  status : SStatus
  sketchError : String
deriving DecidableEq

/-- One component's `handleMessage`: apply the message when it is a
`SKETCH_STATUS` message for this candidate, ignore it otherwise; an error
status also stores the carried message. -/
def handleMessage (c : CandidateView) (m : SketchMsg) : CandidateView :=
  if m.type = "SKETCH_STATUS" ∧ m.id = c.id then
    { c with
      status := m.status,
      sketchError := if m.status = SStatus.error then m.message else c.sketchError }
  else c

/-- A window message reaches every mounted component. -/
def broadcastMessage (cs : List CandidateView) (m : SketchMsg) : List CandidateView :=
  cs.map (fun c => handleMessage c m)

/-! ### Code editing (`CodePreview.tsx` editor `onChange`, TSX line 135 and
JSX lines 622–625)

TSX: `onChange={v => onCodeChange(output.id, v || '')}` — the component's
`sketchStatus` is left untouched.
JSX: `onChange={(value) => { onCodeChange(output.id, value);
setSketchStatus('idle'); }}`.
`onCodeChange` is Home's
`(id, code) => setOutputs(o => o.map(x => x.id === id ? {...x, code} : x))`. -/

/-- Editing a candidate's code through the TSX editor: the new value
(defaulted to the empty string) replaces the code of the candidate with
the edited id; no component status changes. -/
def tsxEditorChange (cs : List CandidateView) (editedId : Nat) (v : Option String) :
    List CandidateView :=
  cs.map (fun x => if x.id = editedId then { x with code := some (v.getD "") } else x)

/-- Editing a candidate's code through the JSX editor: the new value
replaces the code of the candidate with the edited id, and that
component resets its `sketchStatus` to `idle`. -/
def jsxEditorChange (cs : List CandidateView) (editedId : Nat) (v : Option String) :
    List CandidateView :=
  cs.map (fun x =>
    if x.id = editedId then { x with code := v, status := SStatus.idle } else x)

/-! ### Export boundary (`CodePreview.tsx`, `handleDownload`, TSX lines 96–110)

`zip.file('sketch.js', output.code)` — the bundle's `sketch.js` payload is
the candidate's source text, unchanged. -/

/-- The `sketch.js` payload of the download bundle. -/
def sketchJsPayload (c : Candidate) : String := c.code

-- sanity checks of the extractor on concrete inputs
example : extractCode "```js\nlet x = 1;\n```" = "let x = 1;" := by decide
example : extractCode "no fence here" = "no fence here" := by decide
example : extractCode "```\n hi \n```" = "hi" := by decide
example : extractCode "````" = "````" := by decide
example : extractCode "```json\nX\n```" = "on\nX" := by decide
example : jsTrimStr "  a b\n" = "a b" := by decide

-- sanity checks on concrete runs
example : sandboxEmissions (some "boom") [] [] = [Emit.loading, Emit.error "boom"] := by decide
example : sandboxEmissions none [] [] = [Emit.loading, Emit.success] := by decide
example : sandboxEmissions none ["late"] [] =
    [Emit.loading, Emit.error "late", Emit.success] := by decide
example : lifecycleOk (sandboxEmissions none ["late"] []) = false := by decide
example :
    handleMessage { id := 3, code := some "c", status := SStatus.idle, sketchError := "" }
      { type := "SKETCH_STATUS", id := 3, status := SStatus.success, message := "" } =
    { id := 3, code := some "c", status := SStatus.success, sketchError := "" } := by decide

/-! ### Helper lemmas about the extractor -/

theorem isJsSpace_newline : isJsSpace '\n' = true := by decide

theorem isJsSpace_backtick : isJsSpace '`' = false := by decide

theorem splitAtFence_eq_some (l : List Char) (p : List Char × List Char)
    (h : splitAtFence l = some p) : l = p.1 ++ fence ++ p.2 := by
  induction l generalizing p with
  | nil => simp [splitAtFence] at h
  | cons c cs ih =>
    rw [splitAtFence] at h
    by_cases hc : c = '`' ∧ cs.take 2 = ['`', '`']
    · rw [if_pos hc] at h
      cases h
      have hcs : cs = cs.take 2 ++ cs.drop 2 := (List.take_append_drop 2 cs).symm
      rw [hc.2] at hcs
      conv_lhs => rw [hcs]
      simp [fence, hc.1]
    · rw [if_neg hc] at h
      cases hsp : splitAtFence cs with
      | none => rw [hsp] at h; exact Option.noConfusion h
      | some q =>
        rw [hsp] at h
        simp only [Option.map_some'] at h
        cases h
        have := ih q hsp
        simp [this]

theorem fence_not_infix_of_splitAtFence (l : List Char)
    (h : ¬ fence <:+: l) : splitAtFence l = none := by
  cases hsp : splitAtFence l with
  | none => rfl
  | some p =>
    exact absurd ⟨p.1, p.2, (splitAtFence_eq_some l p hsp).symm⟩ h

theorem fence_infix_cons (c : Char) (cs : List Char)
    (h : fence <:+: cs) : fence <:+: (c :: cs) := by
  obtain ⟨s, t, hst⟩ := h
  exact ⟨c :: s, t, by simp [← hst]⟩

theorem splitAtFence_append_nl (X : List Char) (hX : ¬ fence <:+: X) :
    splitAtFence (X ++ '\n' :: fence) = some (X ++ ['\n'], []) := by
  induction X with
  | nil => decide
  | cons c cs ih =>
    have hcs : ¬ fence <:+: cs := fun h => hX (fence_infix_cons c cs h)
    have hcond : ¬ (c = '`' ∧ (cs ++ '\n' :: fence).take 2 = ['`', '`']) := by
      intro hc
      match cs, hc with
      | [], ⟨_, h2⟩ => simp [fence] at h2
      | [d], ⟨_, h2⟩ => simp [fence] at h2
      | d :: e :: cs', ⟨h1, h2⟩ =>
        simp at h2
        exact hX ⟨[], cs', by simp [fence, h1, h2.1, h2.2]⟩
    rw [List.cons_append, splitAtFence, if_neg hcond, ih hcs]
    rfl

theorem dropWhile_append_of_ne_nil (p : Char → Bool) (X y : List Char)
    (h : X.dropWhile p ≠ []) :
    (X ++ y).dropWhile p = X.dropWhile p ++ y := by
  induction X with
  | nil => simp [List.dropWhile] at h
  | cons a as ih =>
    by_cases ha : p a
    · rw [List.cons_append, List.dropWhile_cons_of_pos ha]
      rw [List.dropWhile_cons_of_pos ha] at h ⊢
      exact ih h
    · rw [List.cons_append, List.dropWhile_cons_of_neg ha, List.dropWhile_cons_of_neg ha,
        List.cons_append]

theorem dropWhile_append_of_nil (p : Char → Bool) (X y : List Char)
    (h : X.dropWhile p = []) :
    (X ++ y).dropWhile p = y.dropWhile p := by
  induction X with
  | nil => simp
  | cons a as ih =>
    by_cases ha : p a
    · rw [List.dropWhile_cons_of_pos ha] at h
      rw [List.cons_append, List.dropWhile_cons_of_pos ha]
      exact ih h
    · rw [List.dropWhile_cons_of_neg ha] at h
      simp at h

theorem jsTrim_of_dropWhile_nil (X : List Char) (h : X.dropWhile isJsSpace = []) :
    jsTrim X = [] := by
  rw [jsTrim, h]
  rfl

theorem jsTrim_append_nl (X : List Char) (c : Char) (r : List Char)
    (h : X.dropWhile isJsSpace = c :: r) :
    jsTrim ((c :: r) ++ ['\n']) = jsTrim X := by
  have hc : isJsSpace c = false := by
    have := List.head?_dropWhile_not isJsSpace X
    rw [h] at this
    simpa using this
  rw [jsTrim, jsTrim, h]
  rw [List.cons_append, List.dropWhile_cons_of_neg (by simp [hc]),
    show (c :: (r ++ ['\n'])).reverse = '\n' :: (c :: r).reverse by simp,
    List.dropWhile_cons_of_pos isJsSpace_newline]

theorem dropWhile_suffix_exists (p : Char → Bool) (l : List Char) :
    ∃ s, s ++ l.dropWhile p = l := by
  induction l with
  | nil => exact ⟨[], rfl⟩
  | cons a as ih =>
    by_cases ha : p a
    · obtain ⟨s, hs⟩ := ih
      exact ⟨a :: s, by rw [List.dropWhile_cons_of_pos ha, List.cons_append, hs]⟩
    · exact ⟨[], by rw [List.dropWhile_cons_of_neg ha, List.nil_append]⟩

theorem not_fence_infix_dropWhile (p : Char → Bool) (X : List Char)
    (hX : ¬ fence <:+: X) : ¬ fence <:+: X.dropWhile p := by
  intro h
  obtain ⟨u, v, huv⟩ := h
  obtain ⟨s, hs⟩ := dropWhile_suffix_exists p X
  exact hX ⟨s ++ u, v, by rw [← hs, ← huv]; simp⟩

theorem stripTag_js (rest : List Char) : stripTag ('j' :: 's' :: rest) = rest := by
  have hjav : ("javascript".data).isPrefixOf ('j' :: 's' :: rest) = false := by
    show List.isPrefixOf ('j' :: 'a' :: _) _ = false
    simp only [List.isPrefixOf]
    simp [show (('a' : Char) == 's') = false from rfl]
  have hjs : ("js".data).isPrefixOf ('j' :: 's' :: rest) = true := by
    show List.isPrefixOf ('j' :: 's' :: []) _ = true
    simp [List.isPrefixOf]
  rw [stripTag, if_neg (by simp [hjav]), if_pos (by simp [hjs])]
  rfl

theorem stripTag_newline (rest : List Char) : stripTag ('\n' :: rest) = '\n' :: rest := by
  have hjav : ("javascript".data).isPrefixOf ('\n' :: rest) = false := by
    show List.isPrefixOf ('j' :: _) _ = false
    simp only [List.isPrefixOf]
    simp [show (('j' : Char) == '\n') = false from rfl]
  have hjs : ("js".data).isPrefixOf ('\n' :: rest) = false := by
    show List.isPrefixOf ('j' :: _) _ = false
    simp only [List.isPrefixOf]
    simp [show (('j' : Char) == '\n') = false from rfl]
  rw [stripTag, if_neg (by simp [hjav]), if_neg (by simp [hjs])]

theorem extract_tail_core (X : List Char) (hX : ¬ fence <:+: X) :
    (match splitAtFence (('\n' :: (X ++ '\n' :: fence)).dropWhile isJsSpace) with
     | none => (none : Option (List Char))
     | some (interior, _) => some (jsTrim interior)) = some (jsTrim X) := by
  rw [List.dropWhile_cons_of_pos isJsSpace_newline]
  cases hd : X.dropWhile isJsSpace with
  | nil =>
    rw [dropWhile_append_of_nil isJsSpace X _ hd,
      List.dropWhile_cons_of_pos isJsSpace_newline,
      show fence.dropWhile isJsSpace = fence by decide,
      show splitAtFence fence = some ([], []) by decide,
      jsTrim_of_dropWhile_nil X hd]
    rfl
  | cons c r =>
    rw [dropWhile_append_of_ne_nil isJsSpace X _ (by rw [hd]; exact List.cons_ne_nil c r), hd]
    have hfree : ¬ fence <:+: (c :: r) := by
      rw [← hd]
      exact not_fence_infix_dropWhile isJsSpace X hX
    rw [splitAtFence_append_nl (c :: r) hfree]
    show some (jsTrim ((c :: r) ++ ['\n'])) = some (jsTrim X)
    rw [jsTrim_append_nl X c r hd]

theorem splitAtFence_cons_fence (rest : List Char) :
    splitAtFence ('`' :: '`' :: '`' :: rest) = some ([], rest) := by
  rw [splitAtFence, if_pos ⟨rfl, rfl⟩]
  rfl

theorem extractAfterOpen_js (t X : List Char) (hX : ¬ fence <:+: X) :
    extractAfterOpen t ('j' :: 's' :: ('\n' :: (X ++ '\n' :: fence))) = jsTrim X := by
  have hcore := extract_tail_core X hX
  rw [extractAfterOpen, stripTag_js]
  cases hsp : splitAtFence (('\n' :: (X ++ '\n' :: fence)).dropWhile isJsSpace) with
  | none => rw [hsp] at hcore; exact Option.noConfusion hcore
  | some p =>
    obtain ⟨interior, rest⟩ := p
    rw [hsp] at hcore
    have hcore' : some (jsTrim interior) = some (jsTrim X) := hcore
    exact Option.some.inj hcore'

theorem extractAfterOpen_plain (t X : List Char) (hX : ¬ fence <:+: X) :
    extractAfterOpen t ('\n' :: (X ++ '\n' :: fence)) = jsTrim X := by
  have hcore := extract_tail_core X hX
  rw [extractAfterOpen, stripTag_newline]
  cases hsp : splitAtFence (('\n' :: (X ++ '\n' :: fence)).dropWhile isJsSpace) with
  | none => rw [hsp] at hcore; exact Option.noConfusion hcore
  | some p =>
    obtain ⟨interior, rest⟩ := p
    rw [hsp] at hcore
    have hcore' : some (jsTrim interior) = some (jsTrim X) := hcore
    exact Option.some.inj hcore'

theorem extractCode_id_of_no_fence (s : String) (h : ¬ fence <:+: s.data) :
    extractCode s = s := by
  show String.mk (extractCodeList s.data) = s
  rw [extractCodeList, fence_not_infix_of_splitAtFence s.data h]

theorem extractCode_wrapJs (code : String) (h : ¬ fence <:+: code.data) :
    extractCode (wrapJsFence code) = jsTrimStr code := by
  show String.mk (extractCodeList
    ('`' :: '`' :: '`' :: 'j' :: 's' :: ('\n' :: (code.data ++ '\n' :: fence)))) =
    String.mk (jsTrim code.data)
  rw [extractCodeList, splitAtFence_cons_fence]
  show String.mk (extractAfterOpen
    ('`' :: '`' :: '`' :: 'j' :: 's' :: ('\n' :: (code.data ++ '\n' :: fence)))
    ('j' :: 's' :: ('\n' :: (code.data ++ '\n' :: fence)))) = String.mk (jsTrim code.data)
  rw [extractAfterOpen_js _ code.data h]

theorem extractCode_wrapPlain (code : String) (h : ¬ fence <:+: code.data) :
    extractCode (wrapPlainFence code) = jsTrimStr code := by
  show String.mk (extractCodeList
    ('`' :: '`' :: '`' :: ('\n' :: (code.data ++ '\n' :: fence)))) =
    String.mk (jsTrim code.data)
  rw [extractCodeList, splitAtFence_cons_fence]
  show String.mk (extractAfterOpen
    ('`' :: '`' :: '`' :: ('\n' :: (code.data ++ '\n' :: fence)))
    ('\n' :: (code.data ++ '\n' :: fence))) = String.mk (jsTrim code.data)
  rw [extractAfterOpen_plain _ code.data h]

example : ¬ fence <:+: "hello".data := by decide

/-! ### Helper lemmas about the batch model and the poller -/

theorem rejectCheck_map_ok (texts : List String) (j : Nat) :
    (match (texts.map Except.ok).get? j with
     | some (Except.error e) => some e
     | _ => none : Option ErrInfo) = none := by
  cases hoj : (texts.map Except.ok).get? j with
  | none => rfl
  | some o =>
    obtain ⟨t, _, rfl⟩ := List.mem_map.mp (List.get?_mem hoj)
    rfl

theorem firstRejection_isSome (outcomes : List (Except ErrInfo String))
    (order : List Nat) (i : Nat) (e : ErrInfo)
    (hi : outcomes.get? i = some (Except.error e)) (hmem : i ∈ order) :
    ∃ e', firstRejection outcomes order = some e' := by
  induction order with
  | nil => exact absurd hmem (List.not_mem_nil i)
  | cons j rest ih =>
    simp only [firstRejection, List.findSome?_cons]
    cases hoj : outcomes.get? j with
    | none =>
      rcases List.mem_cons.mp hmem with h | h
      · rw [h, hoj] at hi
        exact Option.noConfusion hi
      · exact ih h
    | some o =>
      cases o with
      | ok t =>
        rcases List.mem_cons.mp hmem with h | h
        · rw [h, hoj] at hi
          exact Except.noConfusion (Option.some.inj hi)
        · exact ih h
      | error e2 => exact ⟨e2, rfl⟩

theorem firstRejection_map_ok (texts : List String) (order : List Nat) :
    firstRejection (texts.map Except.ok) order = none := by
  induction order with
  | nil => rfl
  | cons j rest ih =>
    simp only [firstRejection, List.findSome?_cons]
    rw [rejectCheck_map_ok texts j]
    exact ih

theorem okResults_map_ok (texts : List String) :
    okResults (texts.map Except.ok) = texts := by
  induction texts with
  | nil => rfl
  | cons t ts ih =>
    rw [List.map_cons, okResults, List.filterMap_cons]
    rw [okResults] at ih
    simp only [ih]

theorem promiseAll_map_ok (texts : List String) (order : List Nat) :
    promiseAll (texts.map Except.ok) order = Except.ok texts := by
  rw [promiseAll, firstRejection_map_ok, okResults_map_ok]

theorem pollVideo_succ (getOp : Operation → Operation) (fuel : Nat) (res : Operation) :
    pollVideo getOp (fuel + 1) res =
      if res.done then some ([], res)
      else
        match pollVideo getOp fuel (getOp res) with
        | none => none
        | some (tr, t) => some (res :: tr, t) := rfl

theorem pollVideo_step (getOp : Operation → Operation) (fuel : Nat) (res : Operation)
    (h : res.done = false) :
    pollVideo getOp (fuel + 1) res =
      match pollVideo getOp fuel (getOp res) with
      | none => none
      | some (tr, t) => some (res :: tr, t) := by
  rw [pollVideo_succ, if_neg (by rw [h]; exact Bool.false_ne_true)]

theorem pollVideo_done (getOp : Operation → Operation) (fuel : Nat) (res : Operation)
    (h : res.done = true) : pollVideo getOp fuel res = some ([], res) := by
  cases fuel with
  | zero => rw [pollVideo, if_pos h]
  | succ n => rw [pollVideo_succ, if_pos h]

/-! ### Claim theorems -/

/-- C1: for every batch of N concurrent generation calls issued by
`generateCode`, if any one call fails then the whole batch is reported as
failed (`errorInfo` is set) and zero Candidates from that batch are
surfaced: the `outputs` list is left exactly as it was, and `loading` is
cleared. -/
theorem c1_batch_all_or_nothing (s : HostState) (now : Nat)
    (outcomes : List (Except ErrInfo String)) (order : List Nat) (i : Nat) (e : ErrInfo)
    (himg : s.imageBase64 ≠ "")
    (hi : outcomes.get? i = some (Except.error e))
    (hperm : order.Perm (List.range outcomes.length)) :
    (generateCode s now outcomes order).outputs = s.outputs ∧
    (generateCode s now outcomes order).errorInfo.isSome = true ∧
    (generateCode s now outcomes order).loading = false := by
  have hlen : i < outcomes.length := by
    rcases List.get?_eq_some.mp hi with ⟨h, _⟩
    exact h
  have hmem : i ∈ order := hperm.mem_iff.mpr (List.mem_range.mpr hlen)
  obtain ⟨e', he'⟩ := firstRejection_isSome outcomes order i e hi hmem
  rw [generateCode, if_neg himg, promiseAll, he']
  exact ⟨rfl, rfl, rfl⟩

/-- C1 witness: a concrete two-call batch whose second call rejects,
completing out of submission order. -/
theorem c1_batch_all_or_nothing_witness :
    (generateCode
      { imageBase64 := "img", userInput := "", outputs := [{ id := 0, code := "c", fullResponse := "r" }],
        loading := true, errorInfo := none, chatMessages := [], generatedMedia := [] }
      9 [Except.ok "t", Except.error { message := "quota" }] [1, 0]).outputs =
      [{ id := 0, code := "c", fullResponse := "r" }] ∧
    (generateCode
      { imageBase64 := "img", userInput := "", outputs := [{ id := 0, code := "c", fullResponse := "r" }],
        loading := true, errorInfo := none, chatMessages := [], generatedMedia := [] }
      9 [Except.ok "t", Except.error { message := "quota" }] [1, 0]).errorInfo.isSome = true ∧
    (generateCode
      { imageBase64 := "img", userInput := "", outputs := [{ id := 0, code := "c", fullResponse := "r" }],
        loading := true, errorInfo := none, chatMessages := [], generatedMedia := [] }
      9 [Except.ok "t", Except.error { message := "quota" }] [1, 0]).loading = false :=
  c1_batch_all_or_nothing _ 9 _ [1, 0] 1 { message := "quota" }
    (by decide) rfl (by decide)

/-- C2 counterexample: the claim says the status sequence of a single run
is exactly `[loading, success]` or `[loading, error]` and that an error is
never followed by a success.  But the sandbox script schedules the 100 ms
success timer unconditionally once the synchronous evaluation finished and
never cancels it, so an uncaught asynchronous error arriving before the
timer yields `[loading, error, success]`. -/
theorem c2_lifecycle_counterexample :
    sandboxEmissions none ["boom"] [] =
      [Emit.loading, Emit.error "boom", Emit.success] ∧
    lifecycleOk (sandboxEmissions none ["boom"] []) = false := by
  exact ⟨rfl, rfl⟩

/-- C2 amended: provided no uncaught asynchronous error reaches
`window.onerror` during the run, the status sequence of a single run is
exactly `[loading, success]` or `[loading, error]` (for both the TSX
sandbox and the JSX `renderSketch` sandbox); and in every run, also with
asynchronous errors, `loading` is the first message emitted, so `loading`
always precedes any terminal message. -/
theorem c2_lifecycle_amended (syncError : Option String) (hasSetup : Bool)
    (sb sa : List String) :
    lifecycleOk (sandboxEmissions syncError [] []) = true ∧
    lifecycleOk (sandboxEmissionsJsx syncError hasSetup [] []) = true ∧
    (sandboxEmissions syncError sb sa).head? = some Emit.loading ∧
    (sandboxEmissionsJsx syncError hasSetup sb sa).head? = some Emit.loading := by
  cases syncError <;> cases hasSetup <;> exact ⟨rfl, rfl, rfl, rfl⟩

/-- C3: the claim (and the spec's invariant) says every edit of a
candidate's `sourceCode` resets that candidate's status to `idle`.  The
JSX editor does exactly that (`setSketchStatus('idle')`, with the comment
"Reset status when code is edited"), but the TSX editor's `onChange` only
propagates the new code and leaves `sketchStatus` untouched: editing while
`status = success` keeps the stale `success` attached to the edited code. -/
theorem c3_tsx_edit_keeps_stale_status :
    tsxEditorChange
        [{ id := 1, code := some "old", status := SStatus.success, sketchError := "" }]
        1 (some "new") =
      [{ id := 1, code := some "new", status := SStatus.success, sketchError := "" }] ∧
    jsxEditorChange
        [{ id := 1, code := some "old", status := SStatus.success, sketchError := "" }]
        1 (some "new") =
      [{ id := 1, code := some "new", status := SStatus.idle, sketchError := "" }] := by
  exact ⟨rfl, rfl⟩

/-- C4: the Code Extractor always returns a string with no error
condition (it is a total function); it returns the input unchanged when
the input contains no fence, and for a text that wraps a fence-free
program in a fenced block — `js`-tagged exactly as in the claim's
`"```js\nX\n```"` example, or untagged — it returns the interior trimmed. -/
theorem c4_code_extractor :
    (∀ s : String, ¬ fence <:+: s.data → extractCode s = s) ∧
    (∀ code : String, ¬ fence <:+: code.data →
      extractCode (wrapJsFence code) = jsTrimStr code) ∧
    (∀ code : String, ¬ fence <:+: code.data →
      extractCode (wrapPlainFence code) = jsTrimStr code) :=
  ⟨extractCode_id_of_no_fence, extractCode_wrapJs, extractCode_wrapPlain⟩

/-- C4 witness: concrete fence-free inputs. -/
theorem c4_code_extractor_witness :
    extractCode "no fenced block here" = "no fenced block here" ∧
    extractCode (wrapJsFence " let x = 1; ") = jsTrimStr " let x = 1; " ∧
    extractCode (wrapPlainFence " let x = 1; ") = jsTrimStr " let x = 1; " :=
  ⟨c4_code_extractor.1 "no fenced block here" (by decide),
   c4_code_extractor.2.1 " let x = 1; " (by decide),
   c4_code_extractor.2.2 " let x = 1; " (by decide)⟩

/-- C5: for all N ≥ 1, a successful batch of N generation calls yields
exactly N Candidates, assembled in request-submission order (candidate i
carries the i-th call's text, extracted) with freshly assigned pairwise
distinct ids `now + i` — independent of the completion order `order`,
which the conclusion does not mention and the hypotheses do not
constrain. -/
theorem c5_batch_order_and_ids (s : HostState) (now : Nat) (texts : List String)
    (order : List Nat) (himg : s.imageBase64 ≠ "") (_hN : 1 ≤ texts.length) :
    (generateCode s now (texts.map Except.ok) order).outputs =
      texts.enum.map (fun p =>
        { id := now + p.1, code := extractCode p.2, fullResponse := p.2 }) ∧
    (generateCode s now (texts.map Except.ok) order).outputs.length = texts.length ∧
    ((generateCode s now (texts.map Except.ok) order).outputs.map Candidate.id).Nodup := by
  rw [generateCode, if_neg himg, promiseAll_map_ok]
  refine ⟨rfl, ?_, ?_⟩
  · simp [List.enum_length]
  · have hids : ((texts.enum.map (fun p =>
        ({ id := now + p.1, code := extractCode p.2, fullResponse := p.2 } : Candidate))).map
          Candidate.id) =
        (List.range texts.length).map (fun k => now + k) := by
      rw [List.map_map, ← List.enum_map_fst texts, List.map_map]
      rfl
    show ((texts.enum.map (fun p =>
      ({ id := now + p.1, code := extractCode p.2, fullResponse := p.2 } : Candidate))).map
        Candidate.id).Nodup
    rw [hids]
    exact (List.nodup_range texts.length).map (fun a b h => by omega)

/-- C5 witness: a successful batch of two calls, completing in reverse
order. -/
theorem c5_batch_order_and_ids_witness :
    (generateCode
      { imageBase64 := "img", userInput := "", outputs := [], loading := true,
        errorInfo := none, chatMessages := [], generatedMedia := [] }
      100 (["```js\na\n```", "b"].map Except.ok) [1, 0]).outputs =
      (["```js\na\n```", "b"].enum.map (fun p =>
        { id := 100 + p.1, code := extractCode p.2, fullResponse := p.2 })) ∧
    (generateCode
      { imageBase64 := "img", userInput := "", outputs := [], loading := true,
        errorInfo := none, chatMessages := [], generatedMedia := [] }
      100 (["```js\na\n```", "b"].map Except.ok) [1, 0]).outputs.length = 2 ∧
    ((generateCode
      { imageBase64 := "img", userInput := "", outputs := [], loading := true,
        errorInfo := none, chatMessages := [], generatedMedia := [] }
      100 (["```js\na\n```", "b"].map Except.ok) [1, 0]).outputs.map Candidate.id).Nodup :=
  c5_batch_order_and_ids _ 100 ["```js\na\n```", "b"] [1, 0] (by decide) (by decide)

/-- C6: a Status Channel message whose `candidateId` does not equal the id
of any currently-live candidate is discarded: delivering it to every
mounted component changes no candidate's code, status or error state. -/
theorem c6_stale_message_discarded (cs : List CandidateView) (m : SketchMsg)
    (hm : m.id ∉ cs.map CandidateView.id) :
    broadcastMessage cs m = cs := by
  induction cs with
  | nil => rfl
  | cons c rest ih =>
    rw [List.map_cons, List.mem_cons] at hm
    push_neg at hm
    have hc : handleMessage c m = c := by
      rw [handleMessage, if_neg]
      intro hcond
      exact hm.1 hcond.2
    have hrest := ih hm.2
    rw [broadcastMessage] at hrest ⊢
    rw [List.map_cons, hc, hrest]

/-- C6 witness: a message for id 2 delivered while only id 1 is live. -/
theorem c6_stale_message_discarded_witness :
    broadcastMessage
      [{ id := 1, code := some "a", status := SStatus.loading, sketchError := "" }]
      { type := "SKETCH_STATUS", id := 2, status := SStatus.success, message := "" } =
      [{ id := 1, code := some "a", status := SStatus.loading, sketchError := "" }] :=
  c6_stale_message_discarded _ _ (by decide)

/-- C7: the Operation Poller polls using the most recently returned
handle until `done = true`.  For a job whose three successive status
fetches report `done = false`, `done = false`, then `done = true` with a
result reference, the video flow performs exactly three status fetches —
their arguments being the initial handle and then each previously
returned handle, never a handle that already reported done — followed by
exactly one resource-resolution fetch of the terminal reference. -/
theorem c7_poller_fetch_trace (getOp : Operation → Operation) (fuel : Nat)
    (h0 h1 h2 h3 : Operation) (u apiKey : String)
    (hfuel : 3 ≤ fuel)
    (hd0 : h0.done = false) (hg0 : getOp h0 = h1)
    (hd1 : h1.done = false) (hg1 : getOp h1 = h2)
    (hd2 : h2.done = false) (hg2 : getOp h2 = h3)
    (hd3 : h3.done = true) (hres : h3.resultReference = some u) :
    videoFlow getOp fuel h0 apiKey = some ([h0, h1, h2], [u ++ "&key=" ++ apiKey]) ∧
    ∀ o ∈ [h0, h1, h2], o.done = false := by
  obtain ⟨f, rfl⟩ : ∃ f, fuel = f + 2 + 1 := ⟨fuel - 3, by omega⟩
  have hpoll : pollVideo getOp (f + 2 + 1) h0 = some ([h0, h1, h2], h3) := by
    rw [pollVideo_step getOp (f + 2) h0 hd0, hg0,
      show f + 2 = f + 1 + 1 from rfl,
      pollVideo_step getOp (f + 1) h1 hd1, hg1,
      show f + 1 = f + 0 + 1 from rfl,
      pollVideo_step getOp (f + 0) h2 hd2, hg2,
      pollVideo_done getOp (f + 0) h3 hd3]
  constructor
  · rw [videoFlow, hpoll]
    show some ([h0, h1, h2], resolveVideoFetches h3 apiKey) =
      some ([h0, h1, h2], [u ++ "&key=" ++ apiKey])
    rw [resolveVideoFetches, hres]
    rfl
  · intro o ho
    have ho' : o = h0 ∨ o = h1 ∨ o = h2 := by simpa using ho
    rcases ho' with rfl | rfl | rfl
    · exact hd0
    · exact hd1
    · exact hd2

/-- C7 witness: a concrete service with four distinct handles. -/
theorem c7_poller_fetch_trace_witness :
    videoFlow
      (fun o =>
        if o.name = "op0" then { name := "op1", done := false, resultReference := none }
        else if o.name = "op1" then { name := "op2", done := false, resultReference := none }
        else { name := "op3", done := true, resultReference := some "https://v/u" })
      10 { name := "op0", done := false, resultReference := none } "KEY" =
      some ([{ name := "op0", done := false, resultReference := none },
             { name := "op1", done := false, resultReference := none },
             { name := "op2", done := false, resultReference := none }],
            ["https://v/u" ++ "&key=" ++ "KEY"]) :=
  (c7_poller_fetch_trace
    (fun o =>
      if o.name = "op0" then { name := "op1", done := false, resultReference := none }
      else if o.name = "op1" then { name := "op2", done := false, resultReference := none }
      else { name := "op3", done := true, resultReference := some "https://v/u" })
    10
    { name := "op0", done := false, resultReference := none }
    { name := "op1", done := false, resultReference := none }
    { name := "op2", done := false, resultReference := none }
    { name := "op3", done := true, resultReference := some "https://v/u" }
    "https://v/u" "KEY"
    (by omega) rfl (by decide) rfl (by decide) rfl (by decide) rfl rfl).1

/-- C8 counterexample: re-extracting an exported `sourceCode` from a
fence does not return the original when the source has leading or
trailing whitespace — the extractor trims, so `"x "` comes back as
`"x"`. -/
theorem c8_round_trip_counterexample :
    extractCode (wrapJsFence (sketchJsPayload
      { id := 7, code := "x ", fullResponse := "r" })) ≠
      sketchJsPayload { id := 7, code := "x ", fullResponse := "r" } := by
  decide

/-- C8 amended: for any Candidate whose `sourceCode` contains no
three-backtick fence and is its own trim (no leading or trailing
whitespace), exporting it unchanged as the `sketch.js` payload and
re-extracting it from a fenced wrapping yields the original text back. -/
theorem c8_round_trip (c : Candidate)
    (hfree : ¬ fence <:+: (sketchJsPayload c).data)
    (htrim : jsTrimStr (sketchJsPayload c) = sketchJsPayload c) :
    extractCode (wrapJsFence (sketchJsPayload c)) = sketchJsPayload c := by
  rw [extractCode_wrapJs _ hfree, htrim]

/-- C8 witness: a concrete already-trimmed, fence-free source. -/
theorem c8_round_trip_witness :
    extractCode (wrapJsFence (sketchJsPayload
      { id := 3, code := "let y = 2;", fullResponse := "resp" })) =
      sketchJsPayload { id := 3, code := "let y = 2;", fullResponse := "resp" } :=
  c8_round_trip { id := 3, code := "let y = 2;", fullResponse := "resp" }
    (by decide) (by decide)

/-- C9: when `imageBase64` is the empty string, `generateCode` returns
immediately: the entire host state (outputs, loading, errorInfo and all
other cells) is unchanged and no generation request is issued. -/
theorem c9_empty_image_guard (s : HostState) (himg : s.imageBase64 = "") :
    (∀ (now : Nat) (outcomes : List (Except ErrInfo String)) (order : List Nat),
      generateCode s now outcomes order = s) ∧
    (∀ concurrentRequests : Nat, generateCodeRequestCount s concurrentRequests = 0) := by
  constructor
  · intro now outcomes order
    rw [generateCode, if_pos himg]
  · intro concurrentRequests
    rw [generateCodeRequestCount, if_pos himg]

/-- C9 witness: a concrete state without an image. -/
theorem c9_empty_image_guard_witness :
    generateCode
      { imageBase64 := "", userInput := "u", outputs := [], loading := true,
        errorInfo := none, chatMessages := [], generatedMedia := [] }
      5 [Except.error { message := "never sent" }] [0] =
      { imageBase64 := "", userInput := "u", outputs := [], loading := true,
        errorInfo := none, chatMessages := [], generatedMedia := [] } ∧
    generateCodeRequestCount
      { imageBase64 := "", userInput := "u", outputs := [], loading := true,
        errorInfo := none, chatMessages := [], generatedMedia := [] } 3 = 0 :=
  ⟨(c9_empty_image_guard _ rfl).1 5 [Except.error { message := "never sent" }] [0],
   (c9_empty_image_guard _ rfl).2 3⟩

/-- C10 counterexample: the claim says the loading flag is false after
every completed invocation of `generateCode`, `handleChat` or
`generateMedia`.  But the input guards return before the `try`/`finally`:
an invocation of `handleChat` with blank input (reachable by pressing
Enter in the chat box while an earlier operation is still pending, since
the keydown handler does not check `loading`) completes and leaves
`loading` as it was — here `true`. -/
theorem c10_loading_counterexample :
    (handleChat
      { imageBase64 := "", userInput := " ", outputs := [], loading := true,
        errorInfo := none, chatMessages := [], generatedMedia := [] }
      (Except.ok { text := "hi", grounding := none })).loading = true := by
  decide

/-- C10 amended: after every invocation of `generateCode` that passes the
non-empty-image guard, every invocation of `handleChat` that passes the
non-blank-input guard, and every invocation of `generateMedia` (which has
no guard), the loading flag is false — whether the body succeeds or
throws, because the `finally` branch clears it on every such path.  A
guard-rejected invocation instead leaves the whole state, including any
still-true `loading`, unchanged. -/
theorem c10_loading_cleared :
    (∀ (s : HostState) (now : Nat) (outcomes : List (Except ErrInfo String))
        (order : List Nat), s.imageBase64 ≠ "" →
      (generateCode s now outcomes order).loading = false) ∧
    (∀ (s : HostState) (outcome : Except ErrInfo ChatResponse),
      jsTrimStr s.userInput ≠ "" → (handleChat s outcome).loading = false) ∧
    (∀ (s : HostState) (tryResult : Except ErrInfo (Option MediaItem)),
      (generateMedia s tryResult).loading = false) ∧
    (∀ (s : HostState) (now : Nat) (outcomes : List (Except ErrInfo String))
        (order : List Nat), s.imageBase64 = "" →
      generateCode s now outcomes order = s) ∧
    (∀ (s : HostState) (outcome : Except ErrInfo ChatResponse),
      jsTrimStr s.userInput = "" → handleChat s outcome = s) := by
  refine ⟨?_, ?_, ?_, ?_, ?_⟩
  · intro s now outcomes order himg
    rw [generateCode, if_neg himg]
    cases promiseAll outcomes order with
    | ok texts => rfl
    | error e => rfl
  · intro s outcome hin
    rw [handleChat, if_neg hin]
    cases outcome with
    | ok r => rfl
    | error e => rfl
  · intro s tryResult
    cases tryResult with
    | ok o => cases o with
      | none => rfl
      | some item => rfl
    | error e => rfl
  · intro s now outcomes order himg
    rw [generateCode, if_pos himg]
  · intro s outcome hin
    rw [handleChat, if_pos hin]

/-- C10 witness: concrete invocations past the guards, one succeeding and
one throwing. -/
theorem c10_loading_cleared_witness :
    (generateCode
      { imageBase64 := "img", userInput := "", outputs := [], loading := true,
        errorInfo := none, chatMessages := [], generatedMedia := [] }
      1 [Except.error { message := "boom" }] [0]).loading = false ∧
    (handleChat
      { imageBase64 := "", userInput := "hello", outputs := [], loading := true,
        errorInfo := none, chatMessages := [], generatedMedia := [] }
      (Except.ok { text := "hi", grounding := none })).loading = false ∧
    (generateMedia
      { imageBase64 := "", userInput := "", outputs := [], loading := true,
        errorInfo := none, chatMessages := [], generatedMedia := [] }
      (Except.error { message := "boom" })).loading = false :=
  ⟨c10_loading_cleared.1 _ 1 [Except.error { message := "boom" }] [0] (by decide),
   c10_loading_cleared.2.1 _ (Except.ok { text := "hi", grounding := none }) (by decide),
   c10_loading_cleared.2.2.1 _ (Except.error { message := "boom" })⟩
